import Mathlib

/-!
Verification of the InfoFlow4Venture pipeline (ListPageExtractor.py,
DetailPageExtractor.py, EmailService.py, scheduler.py) against its
natural-language specification.

The Python code is shallowly embedded: external effects (SMTP transport,
MongoDB store, LLM crawls, the config file, wall-clock time and date
parsing) are passed in explicitly as parameters or list-valued states;
Python `None` becomes `Option`, a function that can raise becomes
`Except`, and Python truthiness is spelled out per type.
-/

namespace InfoFlow

/-! ## EmailService.py -/

/-- Outcome of one `send_single_email` call as observed by `send_email`:
either the call returned a Python value (`True`, `False`, or the implicit
`None` when the attempt loop body never runs), or it raised. -/
inductive SendOutcome where
  | ret (v : Option Bool)
  | exn
deriving DecidableEq, Repr

/-- Attempt loop of `NewsEmailService.send_single_email` (EmailService.py
lines 163-176).  `transport attempt` tells whether the SMTP send on that
attempt succeeds.  Returns the Python return value (`none` models falling
off the end of the function, Python `None`) together with the number of
`time.sleep(retry_delay)` calls performed. -/
def send_single_email_loop (transport : Nat → Bool) (retry_count : Nat)
    (attempt : Nat) (sleeps : Nat) : Option Bool × Nat :=
  if attempt < retry_count then
    if transport attempt then (some true, sleeps)
    else if attempt < retry_count - 1 then
      send_single_email_loop transport retry_count (attempt + 1) (sleeps + 1)
    else (some false, sleeps)
  else (none, sleeps)
termination_by retry_count - attempt

/-- Model of `NewsEmailService.send_single_email` (EmailService.py lines
155-176), starting the attempt loop at attempt 0 with no sleeps yet. -/
def send_single_email (transport : Nat → Bool) (retry_count : Nat) :
    Option Bool × Nat :=
  send_single_email_loop transport retry_count 0 0

/-- One recipient's contribution to the running
(success_count, failed_recipients) pair in `send_email` (EmailService.py
lines 194-206): the `if` test is Python truthiness of the returned value,
and a raised exception lands the recipient in `failed_recipients`. -/
def send_email_step (outcome : String → SendOutcome)
    (acc : Nat × List String) (r : String) : Nat × List String :=
  match outcome r with
  | .ret (some true) => (acc.1 + 1, acc.2)
  | .ret _ => (acc.1, acc.2 ++ [r])
  | .exn => (acc.1, acc.2 ++ [r])

/-- Model of `NewsEmailService.send_email` (EmailService.py lines 178-217)
after the sender-credential check: iterate over the recipients, and raise
(`Except.error`) when `success_count == 0`, otherwise return the pair
`(success_count, failed_recipients)`. -/
def send_email (outcome : String → SendOutcome) (recipients : List String) :
    Except String (Nat × List String) :=
  let acc := recipients.foldl (send_email_step outcome) (0, [])
  if acc.1 = 0 then .error "All email sending attempts failed"
  else .ok acc

/-- Whether `send_email` counts the recipient as a success: its
`send_single_email` call returned exactly Python `True`. -/
def sendSuccess (outcome : String → SendOutcome) (r : String) : Bool :=
  outcome r = .ret (some true)

/-- Model of `NewsEmailService.process_and_send_news` (EmailService.py
lines 51-74).  `selfRecipients` is `self.recipients`; `arg` is the
optional `recipients` argument (`none` = Python `None`).  The fetch /
translate / render / send pipeline of lines 60-65 is abstracted as
`pipeline`, returning what `send_email` returns or raising; a raised
exception is logged and re-raised (`Except.error`).  Python
`recipients or self.recipients` falls back when the argument is `None`
or an empty list. -/
def process_and_send_news
    (pipeline : List String → Except String (Nat × List String))
    (selfRecipients : List String) (arg : Option (List String)) :
    Except String Bool :=
  let recipients :=
    match arg with
    | none => selfRecipients
    | some l => if l = [] then selfRecipients else l
  if recipients = [] then .ok false
  else
    match pipeline recipients with
    | .error e => .error e
    | .ok _ => .ok true

/-! ## The news store -/

/-- A document of the `news` MongoDB collection, as written by
`_format_news_document` and the detail-page update: dates are abstract
`Nat` timestamps, `content` and `keywords` are nullable. -/
structure NewsDoc where
  title : String
  url : String
  published_date : Nat
  created_at : Nat
  tags : List String
  language : String
  content : Option String
  keywords : Option (List String)
deriving DecidableEq, Repr

/-- Filter of the digest query (EmailService.py lines 84-97): MongoDB
keeps a document when `content` differs from null and `keywords` differs
from the empty array.  A null `keywords` field differs from the empty
array, so it passes the second test. -/
def digest_filter (d : NewsDoc) : Bool :=
  d.content ≠ none && d.keywords ≠ some []

/-- Descending order on `published_date`, the sort key of
`.sort('published_date', -1)`. -/
def dateDesc (a b : NewsDoc) : Prop :=
  b.published_date ≤ a.published_date

instance : DecidableRel dateDesc := fun a b =>
  inferInstanceAs (Decidable (b.published_date ≤ a.published_date))

instance : IsTotal NewsDoc dateDesc :=
  ⟨fun a b => (Nat.le_total b.published_date a.published_date).imp id id⟩

instance : IsTrans NewsDoc dateDesc :=
  ⟨fun _ _ _ hab hbc => Nat.le_trans hbc hab⟩

/-- The documents the digest query returns, in order: filter, sort by
`published_date` descending, limit 10 (EmailService.py lines 84-97). -/
def digest_selected (store : List NewsDoc) : List NewsDoc :=
  ((store.filter digest_filter).insertionSort dateDesc).take 10

/-- Shape of one entry of the list `get_latest_news_from_mongodb`
returns (EmailService.py lines 100-107). -/
structure FormattedNews where
  title : String
  summary : Option String
  key_words : Option (List String)
  url : String
deriving DecidableEq, Repr

/-- Projection of a stored document into the digest entry
(EmailService.py lines 101-107): `summary` takes `content`, `key_words`
takes `keywords`. -/
def format_digest_entry (d : NewsDoc) : FormattedNews :=
  { title := d.title, summary := d.content, key_words := d.keywords,
    url := d.url }

/-- Model of `NewsEmailService.get_latest_news_from_mongodb`
(EmailService.py lines 76-109) over a store state. -/
def get_latest_news_from_mongodb (store : List NewsDoc) :
    List FormattedNews :=
  (digest_selected store).map format_digest_entry

/-- A complete document with a given `published_date`, used to state the
digest-selection scenario of the spec (15 complete documents with
distinct dates). -/
def digest_demo_doc (i : Nat) : NewsDoc :=
  { title := "t", url := "u", published_date := i, created_at := 0,
    tags := [], language := "en", content := some "c",
    keywords := some ["k"] }

/-! ## ListPageExtractor.py -/

/-- Value found under `key_words` in the JSON the detail-page LLM
returned: a string, a list, or anything else (including JSON null; a
missing key defaults to the empty string via `.get('key_words', '')`,
hence is `strK ""`). -/
inductive KeyWords where
  | strK (s : String)
  | listK (l : List String)
  | otherK
deriving DecidableEq, Repr

/-- One element of the `detail_content` list produced by the detail-page
extraction (the dict `detail_content[0]` of `_format_news_document`). -/
structure DetailItem where
  summary : Option String
  key_words : KeyWords
deriving DecidableEq, Repr

/-- Splitting of a character list at every comma, keeping empty pieces:
the semantics of Python `str.split(',')` on the underlying characters. -/
def splitCommaAux : List Char → List (List Char)
  | [] => [[]]
  | c :: cs =>
      match splitCommaAux cs, decide (c = ',') with
      | rest, true => [] :: rest
      | g :: gs, false => (c :: g) :: gs
      | [], false => [[c]]

/-- Python `s.split(',')` for a string `s`: split at every comma with no
trimming, keeping empty pieces. -/
def pySplitComma (s : String) : List String :=
  (splitCommaAux s.data).map String.mk

/-- Keyword normalization of `_format_news_document`
(ListPageExtractor.py lines 118-126): a string splits on `,` (an empty
string gives the empty list), a list passes unchanged, anything else
gives the empty list. -/
def computeKeywords : KeyWords → List String
  | .strK s => if s = "" then [] else pySplitComma s
  | .listK l => l
  | .otherK => []

/-- A stub extracted from the listing page (the fields of
`TechFinancingNews` that `_format_news_document` reads). -/
structure NewsData where
  title : String
  tag : String
  further_url : String
  post_time : String
deriving DecidableEq, Repr

/-- Model of `TechFinancingNewsExtractor._format_news_document`
(ListPageExtractor.py lines 95-134).  `strptime` models
`datetime.strptime(post_time, '%Y-%m-%d')` (`none` = `ValueError`, in
which case the current time `now` is used); `detail` is the
`detail_content` list (`none` = Python `None`; an empty list is falsy,
so it leaves the base document untouched, like the code's
`if detail_content:`). -/
def format_news_document (strptime : String → Option Nat) (now : Nat)
    (news : NewsData) (detail : Option (List DetailItem)) : NewsDoc :=
  let base : NewsDoc :=
    { title := news.title
      url := news.further_url
      published_date := (strptime news.post_time).getD now
      created_at := now
      tags := if news.tag = "" then [] else [news.tag]
      language := "en"
      content := none
      keywords := none }
  match detail with
  | some (item :: _) =>
      { base with
        content := item.summary
        keywords := some (computeKeywords item.key_words) }
  | _ => base

/-- MongoDB `update_one({'url': u}, {'$set': document}, upsert=True)`
over a list-of-documents store: replace the documents carrying the url,
or append when none does. -/
def upsert (store : List NewsDoc) (doc : NewsDoc) : List NewsDoc :=
  if store.any (fun d => d.url = doc.url) then
    store.map (fun d => if d.url = doc.url then doc else d)
  else store ++ [doc]

/-- Body of the per-item storage loop of `extract_news_list`
(ListPageExtractor.py lines 195-212) over the state
(store, all_processed_news): the stub is appended to the output
unconditionally; then, when a document with its `further_url` already
exists, the write is skipped, otherwise the freshly formatted document
(no detail content yet) is upserted. -/
def store_news_item (strptime : String → Option Nat) (now : Nat)
    (st : List NewsDoc × List NewsData) (news : NewsData) :
    List NewsDoc × List NewsData :=
  let processed := st.2 ++ [news]
  match st.1.find? (fun d => d.url = news.further_url) with
  | some _ => (st.1, processed)
  | none => (upsert st.1 (format_news_document strptime now news none), processed)

/-- Storage phase of `TechFinancingNewsExtractor.extract_news_list`
(ListPageExtractor.py lines 194-216) for one parsed listing page: fold
the per-item step over the extracted stubs, starting from the current
store and an empty `all_processed_news`. -/
def extract_news_list (strptime : String → Option Nat) (now : Nat)
    (store : List NewsDoc) (news_data : List NewsData) :
    List NewsDoc × List NewsData :=
  news_data.foldl (store_news_item strptime now) (store, [])

/-- Python truthiness of `existing_doc.get('content')`: a non-null,
non-empty string. -/
def truthyContent : Option String → Bool
  | none => false
  | some s => s ≠ ""

/-- Python truthiness of `existing_doc.get('keywords')`: a non-null,
non-empty list. -/
def truthyKeywords : Option (List String) → Bool
  | none => false
  | some l => l ≠ []

/-- Skip test of `extract_detailPage` (ListPageExtractor.py line 226):
`existing_doc and existing_doc.get('keywords') and
existing_doc.get('content')`. -/
def detail_skip (existing : Option NewsDoc) : Bool :=
  match existing with
  | none => false
  | some d => truthyKeywords d.keywords && truthyContent d.content

/-- What `extract_detailPage` decides to do with one stub, before any
extraction runs (ListPageExtractor.py lines 220-228). -/
inductive StubAction where
  | skipNoUrl
  | skipComplete
  | extract
deriving DecidableEq, Repr

/-- Dispatch of `extract_detailPage` on one stub: a falsy `further_url`
(absent or empty) is skipped, a document passing the completeness
truthiness test is skipped, anything else goes to extraction. -/
def detail_stub_action (further_url : Option String)
    (existing : Option NewsDoc) : StubAction :=
  match further_url with
  | none => .skipNoUrl
  | some u =>
      if u = "" then .skipNoUrl
      else if detail_skip existing then .skipComplete
      else .extract

/-! ## DetailPageExtractor.py and the retry loop -/

/-- What one crawl-and-parse attempt inside
`DetailPageContentExtractor.extract_detail_content` does: raise (a
rate-limit error or any other exception), produce a missing or
unparsable result, or yield parsed detail items. -/
inductive CrawlOutcome where
  | raisesRateLimit
  | raisesOther
  | resultNone
  | contentNone
  | jsonError
  | ok (items : List DetailItem)
deriving DecidableEq, Repr

/-- Model of `DetailPageContentExtractor.extract_detail_content`
(DetailPageExtractor.py lines 70-125) on a non-empty url.  The
function's own `except Exception` (lines 122-125) catches every raised
exception — rate-limit errors included — and returns `None`; every
validation failure also returns `None`.  The `Except` result records
whether the call raises to its caller: it never does. -/
def extract_detail_content (outcome : CrawlOutcome) :
    Except Unit (Option (List DetailItem)) :=
  match outcome with
  | .raisesRateLimit => .ok none
  | .raisesOther => .ok none
  | .resultNone => .ok none
  | .contentNone => .ok none
  | .jsonError => .ok none
  | .ok items => .ok (some items)

/-- Retry loop of `extract_detailPage` (ListPageExtractor.py lines
230-238), run with `fuel` as the bound on iterations so the unbounded
`while True` stays total: each iteration calls the extractor on the next
outcome of the stream; a normal return breaks out, a raised exception
would be matched against `litellm.RateLimitError` and, on a match, sleep
30s and loop.  Returns the extraction result and the number of sleeps,
or `none` when the fuel runs out. -/
def detail_retry_loop (outcomes : Nat → CrawlOutcome) :
    Nat → Nat → Nat → Option (Option (List DetailItem) × Nat)
  | 0, _, _ => none
  | fuel + 1, i, sleeps =>
      match extract_detail_content (outcomes i) with
      | .ok v => some (v, sleeps)
      | .error _ => detail_retry_loop outcomes fuel (i + 1) (sleeps + 1)

/-! ## scheduler.py -/

/-- The scheduler's JSON configuration (scheduler.py lines 52-57). -/
structure SchedulerConfig where
  crawler_times : List String
  email_times : List String
  crawler_script : String
  email_script : String
deriving DecidableEq, Repr

/-- Default configuration written when the config file is missing
(scheduler.py lines 52-57). -/
def default_config : SchedulerConfig :=
  { crawler_times := ["08:00"]
    email_times := ["16:25"]
    crawler_script := "ListPageExtractor.py"
    email_script := "EmailService.py" }

/-- Model of `TaskScheduler.save_config`: the config file afterwards
holds the configuration. -/
def save_config (cfg : SchedulerConfig) : Option SchedulerConfig :=
  some cfg

/-- Model of `TaskScheduler.load_config` (scheduler.py lines 44-58) over
the config-file state: read it, or fall back to the default when the
file is missing. -/
def load_config : Option SchedulerConfig → SchedulerConfig
  | some cfg => cfg
  | none => default_config

/-- One job registered with `schedule.every().day.at(t).do(run_script, s)`. -/
structure Job where
  at_time : String
  script : String
deriving DecidableEq, Repr

/-- Model of `TaskScheduler.setup_schedule` (scheduler.py lines
105-124): `schedule.clear()` empties the job list, then one crawler job
per crawler time and one email job per email time are added. -/
def setup_schedule (cfg : SchedulerConfig) : List Job :=
  cfg.crawler_times.map (fun t => { at_time := t, script := cfg.crawler_script })
    ++ cfg.email_times.map (fun t => { at_time := t, script := cfg.email_script })

/-- Model of `TaskScheduler.set_times` (scheduler.py lines 159-170) on
the configuration: update the named time list (other task types change
nothing), then `save_config` and `setup_schedule` run on the result. -/
def set_times (cfg : SchedulerConfig) (task_type : String)
    (times : List String) : SchedulerConfig :=
  if task_type = "crawler" then { cfg with crawler_times := times }
  else if task_type = "email" then { cfg with email_times := times }
  else cfg

/-! ## Theorems for the claims -/

/-- Claim C9: for every prior configuration, `set_times('crawler',
["09:00","11:00"])` followed by a config reload leaves exactly those two
crawler-trigger times active (the rebuilt schedule holds one crawler job
per new time plus the unchanged email jobs) and leaves the email times
and both script-path fields unchanged. -/
theorem C9_set_times_frame (cfg : SchedulerConfig) :
    load_config (save_config (set_times cfg "crawler" ["09:00", "11:00"])) =
      { cfg with crawler_times := ["09:00", "11:00"] } ∧
    (load_config (save_config (set_times cfg "crawler" ["09:00", "11:00"]))).email_times
      = cfg.email_times ∧
    (load_config (save_config (set_times cfg "crawler" ["09:00", "11:00"]))).crawler_script
      = cfg.crawler_script ∧
    (load_config (save_config (set_times cfg "crawler" ["09:00", "11:00"]))).email_script
      = cfg.email_script ∧
    setup_schedule (load_config (save_config (set_times cfg "crawler" ["09:00", "11:00"]))) =
      [{ at_time := "09:00", script := cfg.crawler_script },
       { at_time := "11:00", script := cfg.crawler_script }] ++
        cfg.email_times.map (fun t => { at_time := t, script := cfg.email_script }) := by
  refine ⟨?_, rfl, rfl, rfl, ?_⟩ <;> simp [load_config, save_config, set_times, setup_schedule]

/-- Claim C7: `send_single_email` with `retry_count = 3` against a
transport that fails on the first two attempts and succeeds on the third
returns `True` and has slept between attempts exactly twice. -/
theorem C7_two_failures_then_success (transport : Nat → Bool)
    (h0 : transport 0 = false) (h1 : transport 1 = false)
    (h2 : transport 2 = true) :
    send_single_email transport 3 = (some true, 2) := by
  simp [send_single_email, send_single_email_loop, h0, h1, h2]

/-- Witness for C7 at a concrete transport failing attempts 0 and 1. -/
theorem C7_two_failures_then_success_witness :
    send_single_email (fun n => decide (2 ≤ n)) 3 = (some true, 2) :=
  C7_two_failures_then_success (fun n => decide (2 ≤ n))
    (by decide) (by decide) (by decide)

/-- The recipient loop of `send_email` computes the number of successes
and the list of failed recipients, in recipient order. -/
theorem send_email_foldl (outcome : String → SendOutcome) :
    ∀ (recipients : List String) (acc : Nat × List String),
      recipients.foldl (send_email_step outcome) acc =
        (acc.1 + recipients.countP (sendSuccess outcome),
         acc.2 ++ recipients.filter (fun r => !sendSuccess outcome r)) := by
  intro recipients
  induction recipients with
  | nil => intro acc; simp
  | cons r rest ih =>
      intro acc
      by_cases h : outcome r = .ret (some true)
      · have hs : sendSuccess outcome r = true := by
          simp [sendSuccess, h]
        have hstep : send_email_step outcome acc r = (acc.1 + 1, acc.2) := by
          simp [send_email_step, h]
        rw [List.foldl_cons, hstep, ih, Prod.ext_iff]
        constructor
        · simp [List.countP_cons, hs]; omega
        · simp [List.filter_cons, hs]
      · have hs : sendSuccess outcome r = false := by
          simp [sendSuccess, h]
        have hstep : send_email_step outcome acc r = (acc.1, acc.2 ++ [r]) := by
          cases hv : outcome r with
          | exn => simp [send_email_step, hv]
          | ret v =>
              cases v with
              | none => simp [send_email_step, hv]
              | some b =>
                  cases b with
                  | true => exact absurd hv h
                  | false => simp [send_email_step, hv]
        rw [List.foldl_cons, hstep, ih, Prod.ext_iff]
        constructor
        · simp [List.countP_cons, hs]
        · simp [List.filter_cons, hs]

/-- Claim C10: with `retry_count = 0` the attempt loop of
`send_single_email` never runs, so the function returns Python `None`
(neither `True` nor `False`) with no sleeps; and `send_email` counts a
`None` result as a failed recipient: whenever it returns normally, a
recipient whose call returned `None` is in the failed list. -/
theorem C10_zero_retries_none (transport : Nat → Bool)
    (outcome : String → SendOutcome) (recipients : List String)
    (r : String) (hmem : r ∈ recipients) (hnone : outcome r = .ret none)
    (n : Nat) (failed : List String)
    (hok : send_email outcome recipients = .ok (n, failed)) :
    send_single_email transport 0 = (none, 0) ∧ r ∈ failed := by
  constructor
  · simp [send_single_email, send_single_email_loop]
  · have hfold := send_email_foldl outcome recipients (0, [])
    have : send_email outcome recipients =
        (if recipients.countP (sendSuccess outcome) = 0 then
          Except.error "All email sending attempts failed"
        else .ok (recipients.countP (sendSuccess outcome),
          recipients.filter (fun x => !sendSuccess outcome x))) := by
      simp [send_email, hfold]
    rw [this] at hok
    by_cases hz : recipients.countP (sendSuccess outcome) = 0
    · simp [hz] at hok
    · simp [hz] at hok
      have hfail : sendSuccess outcome r = false := by
        simp [sendSuccess, hnone]
      have : r ∈ recipients.filter (fun x => !sendSuccess outcome x) := by
        refine List.mem_filter.mpr ⟨hmem, ?_⟩
        simp [hfail]
      rw [hok.2] at this
      exact this

/-- Witness for C10: recipient "b" gets `None` back while "a" succeeds,
so the overall send returns normally and "b" is reported failed. -/
theorem C10_zero_retries_none_witness :
    send_single_email (fun _ => true) 0 = (none, 0) ∧ "b" ∈ ["b"] :=
  C10_zero_retries_none (fun _ => true)
    (fun r => if r = "a" then .ret (some true) else .ret none)
    ["a", "b"] "b" (by decide) (by decide) 1 ["b"] (by rfl)

/-- Claim C4: over a non-empty recipient list, `send_email` raises if
and only if every recipient's send failed; when at least one recipient
succeeded it returns normally with the success count and the failed
recipients. -/
theorem C4_send_email_aggregate_failure (outcome : String → SendOutcome)
    (recipients : List String) (hne : recipients ≠ []) :
    ((∃ e, send_email outcome recipients = .error e) ↔
      ∀ r ∈ recipients, outcome r ≠ .ret (some true)) ∧
    ((∃ r ∈ recipients, outcome r = .ret (some true)) →
      send_email outcome recipients =
        .ok (recipients.countP (sendSuccess outcome),
             recipients.filter (fun r => !sendSuccess outcome r))) := by
  have heq : send_email outcome recipients =
      (if recipients.countP (sendSuccess outcome) = 0 then
        Except.error "All email sending attempts failed"
      else .ok (recipients.countP (sendSuccess outcome),
        recipients.filter (fun r => !sendSuccess outcome r))) := by
    simp [send_email, send_email_foldl]
  have hcount : recipients.countP (sendSuccess outcome) = 0 ↔
      ∀ r ∈ recipients, outcome r ≠ .ret (some true) := by
    rw [List.countP_eq_zero]
    constructor
    · intro hall r hr hcontra
      have := hall r hr
      simp [sendSuccess, hcontra] at this
    · intro hall r hr
      have := hall r hr
      simp [sendSuccess]
      exact this
  constructor
  · constructor
    · rintro ⟨e, he⟩
      rw [heq] at he
      by_cases hz : recipients.countP (sendSuccess outcome) = 0
      · exact hcount.mp hz
      · simp [hz] at he
    · intro hall
      exact ⟨_, by rw [heq, if_pos (hcount.mpr hall)]⟩
  · rintro ⟨r, hr, hsucc⟩
    have hz : recipients.countP (sendSuccess outcome) ≠ 0 := by
      intro hz
      exact (hcount.mp hz) r hr hsucc
    rw [heq, if_neg hz]

/-- Witness for C4: with recipient "a" succeeding and "b" raising, the
overall send returns normally with one success and "b" failed. -/
theorem C4_send_email_aggregate_failure_witness :
    send_email (fun r => if r = "a" then .ret (some true) else .exn)
        ["a", "b"] =
      .ok ((["a", "b"]).countP
            (sendSuccess (fun r => if r = "a" then .ret (some true) else .exn)),
           (["a", "b"]).filter
            (fun r => !sendSuccess
              (fun x => if x = "a" then .ret (some true) else .exn) r)) :=
  (C4_send_email_aggregate_failure
      (fun r => if r = "a" then .ret (some true) else .exn)
      ["a", "b"] (by decide)).2 ⟨"a", by decide, by rfl⟩

/-- Claim C3 counterexample: calling `process_and_send_news` with an
empty recipient list (and no configured recipients) does not raise — it
returns `False` — so the configuration-missing case is tolerated, not
fatal, contrary to the claim. -/
theorem C3_empty_recipients_counterexample :
    process_and_send_news (fun _ => .ok (0, [])) [] (some []) = .ok false :=
  rfl

/-- Claim C3 as amended: with an empty effective recipient list
(argument `None` or an empty list, and no configured recipients),
`process_and_send_news` logs a warning and returns `False` to its
caller without running the pipeline and without raising. -/
theorem C3_empty_recipients_amended
    (pipeline : List String → Except String (Nat × List String))
    (arg : Option (List String)) (harg : arg = none ∨ arg = some []) :
    process_and_send_news pipeline [] arg = .ok false := by
  rcases harg with h | h <;> simp [process_and_send_news, h]

/-- Witness for the amended C3 at the `None` argument. -/
theorem C3_empty_recipients_amended_witness :
    process_and_send_news (fun _ => .ok (0, [])) [] none = .ok false :=
  C3_empty_recipients_amended (fun _ => .ok (0, [])) none (Or.inl rfl)

/-- Claim C2 counterexample: a stored document with non-null `content`
(the empty string) and a non-empty `keywords` list is not skipped by
detail backfill — extraction is attempted — because the code tests
Python truthiness of `content`, not non-nullness. -/
theorem C2_complete_skip_counterexample :
    detail_stub_action (some "u")
        (some { title := "t", url := "u", published_date := 0,
                created_at := 0, tags := [], language := "en",
                content := some "", keywords := some ["ai"] })
      = .extract ∧
    (some "" : Option String) ≠ none ∧ (["ai"] : List String) ≠ [] := by
  refine ⟨rfl, by decide, by decide⟩

/-- Claim C2 as amended: a stub with a non-empty `further_url` whose
stored document exists is skipped iff the document has truthy content (a
non-null, non-empty string) and truthy keywords (a non-null, non-empty
list); a document missing either field triggers an extraction attempt. -/
theorem C2_complete_skip_amended (u : String) (d : NewsDoc) (hu : u ≠ "") :
    (detail_stub_action (some u) (some d) = .skipComplete ↔
      (∃ s, d.content = some s ∧ s ≠ "") ∧
      (∃ l, d.keywords = some l ∧ l ≠ [])) ∧
    (d.content = none ∨ d.keywords = none →
      detail_stub_action (some u) (some d) = .extract) := by
  have hiff : detail_skip (some d) = true ↔
      (∃ s, d.content = some s ∧ s ≠ "") ∧
      (∃ l, d.keywords = some l ∧ l ≠ []) := by
    simp only [detail_skip, Bool.and_eq_true]
    constructor
    · rintro ⟨hk, hc⟩
      constructor
      · cases hcv : d.content with
        | none => rw [hcv] at hc; simp [truthyContent] at hc
        | some s =>
            rw [hcv] at hc
            refine ⟨s, rfl, ?_⟩
            simpa [truthyContent] using hc
      · cases hkv : d.keywords with
        | none => rw [hkv] at hk; simp [truthyKeywords] at hk
        | some l =>
            rw [hkv] at hk
            refine ⟨l, rfl, ?_⟩
            simpa [truthyKeywords] using hk
    · rintro ⟨⟨s, hcv, hs⟩, ⟨l, hkv, hl⟩⟩
      rw [hcv, hkv]
      exact ⟨by simpa [truthyKeywords] using hl,
        by simpa [truthyContent] using hs⟩
  constructor
  · rw [← hiff]
    by_cases hskip : detail_skip (some d) = true
    · simp [detail_stub_action, hu, hskip]
    · simp [detail_stub_action, hu, hskip]
  · intro hmiss
    have hskip : detail_skip (some d) = false := by
      rcases hmiss with h | h <;>
        simp [detail_skip, h, truthyContent, truthyKeywords]
    simp [detail_stub_action, hu, hskip]

/-- Witness for the amended C2: a document with content "c" and
keywords ["k"] is skipped as complete. -/
theorem C2_complete_skip_amended_witness :
    detail_stub_action (some "u")
        (some { title := "t", url := "u", published_date := 0,
                created_at := 0, tags := [], language := "en",
                content := some "c", keywords := some ["k"] })
      = .skipComplete :=
  (C2_complete_skip_amended "u"
      { title := "t", url := "u", published_date := 0, created_at := 0,
        tags := [], language := "en", content := some "c",
        keywords := some ["k"] } (by decide)).1.mpr
    ⟨⟨"c", rfl, by decide⟩, ⟨["k"], rfl, by decide⟩⟩

/-- Claim C8: when the detail page's `key_words` is a non-empty string,
the stored `keywords` equal the comma split with no trimming (so
"ai, startups, funding" yields entries with leading spaces); a list is
stored unchanged; an empty string stores the empty list. -/
theorem C8_keyword_normalization (strptime : String → Option Nat)
    (now : Nat) (news : NewsData) (summary : Option String)
    (rest : List DetailItem) :
    (∀ s, s ≠ "" →
      (format_news_document strptime now news
        (some ({ summary := summary, key_words := .strK s } :: rest))).keywords
        = some (pySplitComma s)) ∧
    (∀ l, (format_news_document strptime now news
        (some ({ summary := summary, key_words := .listK l } :: rest))).keywords
        = some l) ∧
    ((format_news_document strptime now news
        (some ({ summary := summary, key_words := .strK "" } :: rest))).keywords
        = some []) ∧
    ((format_news_document strptime now news
        (some ({ summary := summary,
                 key_words := .strK "ai, startups, funding" } :: rest))).keywords
        = some ["ai", " startups", " funding"]) := by
  refine ⟨?_, ?_, ?_, ?_⟩
  · intro s hs
    simp [format_news_document, computeKeywords, hs]
  · intro l
    simp [format_news_document, computeKeywords]
  · simp [format_news_document, computeKeywords]
  · simp [format_news_document, computeKeywords]
    decide

/-- Witness for C8 at a concrete stub and key-word string. -/
theorem C8_keyword_normalization_witness :
    (format_news_document (fun _ => none) 0
        { title := "t", tag := "", further_url := "u", post_time := "p" }
        (some [{ summary := none, key_words := .strK "x,y" }])).keywords
      = some (pySplitComma "x,y") :=
  (C8_keyword_normalization (fun _ => none) 0
      { title := "t", tag := "", further_url := "u", post_time := "p" }
      none []).1 "x,y" (by decide)

/-- Claim C1, evaluated at the failing input: when the detail-page crawl
raises a rate-limit error, `extract_detail_content` swallows it (its
catch-all returns `None`), so the retry loop of `extract_detailPage`
finishes on its very first iteration with result `None` and zero sleeps
— no 30-second wait and no retry ever happen, and the stored document is
left incomplete.  (The `except litellm.RateLimitError` handler is dead
code; `litellm` and `time` are not even imported in
ListPageExtractor.py.) -/
theorem C1_rate_limit_never_retries (outcomes : Nat → CrawlOutcome)
    (fuel : Nat) (hfuel : 1 ≤ fuel)
    (hrl : outcomes 0 = .raisesRateLimit) :
    (∀ o, ∃ v, extract_detail_content o = .ok v) ∧
    detail_retry_loop outcomes fuel 0 0 = some (none, 0) := by
  constructor
  · intro o
    cases o <;> exact ⟨_, rfl⟩
  · obtain ⟨f, rfl⟩ : ∃ f, fuel = f + 1 :=
      ⟨fuel - 1, by omega⟩
    simp [detail_retry_loop, extract_detail_content, hrl]

/-- Witness for C1 on a crawl stream that rate-limits every attempt. -/
theorem C1_rate_limit_never_retries_witness :
    (∀ o, ∃ v, extract_detail_content o = .ok v) ∧
    detail_retry_loop (fun _ => .raisesRateLimit) 1 0 0 = some (none, 0) :=
  C1_rate_limit_never_retries (fun _ => .raisesRateLimit) 1
    (by decide) rfl

/-- Elements of a sorted list that sit before a member not in the first
`n` positions are related to it: the taken prefix dominates every
member left behind. -/
theorem pairwise_take_of_not_mem_take {α : Type} {R : α → α → Prop}
    {L : List α} (hL : L.Pairwise R) {d : α} {n : Nat} (hdL : d ∈ L)
    (hnot : d ∉ L.take n) : ∀ e ∈ L.take n, R e d := by
  intro e he
  have hsorted2 : (L.take n ++ L.drop n).Pairwise R := by
    rw [List.take_append_drop]
    exact hL
  have hdL2 : d ∈ L.take n ++ L.drop n := by
    rw [List.take_append_drop]
    exact hdL
  have hdrop : d ∈ L.drop n := by
    rcases List.mem_append.mp hdL2 with h | h
    · exact absurd h hnot
    · exact h
  exact (List.pairwise_append.mp hsorted2).2.2 e he d hdrop

/-- Claim C5 counterexample: a stored document with non-null `content`
but null `keywords` is returned by the digest query — the MongoDB filter
`keywords != []` lets null through — so the query does not return
exactly the documents with a non-empty keywords list. -/
theorem C5_null_keywords_counterexample :
    get_latest_news_from_mongodb
        [{ title := "t", url := "u", published_date := 5, created_at := 0,
           tags := [], language := "en", content := some "x",
           keywords := none }] =
      [{ title := "t", summary := some "x", key_words := none,
         url := "u" }] := by
  decide

/-- Claim C5 as amended: the digest query returns exactly the documents
with non-null `content` and `keywords` different from the empty list
(null keywords also pass), ordered by `published_date` descending and
limited to the 10 with the greatest dates; on 15 complete documents with
distinct dates it returns exactly the 10 most recent in descending
order. -/
theorem C5_digest_selection_amended (store : List NewsDoc) :
    (∀ d ∈ digest_selected store,
      d ∈ store ∧ d.content ≠ none ∧ d.keywords ≠ some []) ∧
    (digest_selected store).Sorted dateDesc ∧
    (digest_selected store).length
      = min 10 (store.filter digest_filter).length ∧
    (∀ d ∈ store, digest_filter d = true → d ∉ digest_selected store →
      ∀ e ∈ digest_selected store, d.published_date ≤ e.published_date) ∧
    get_latest_news_from_mongodb store
      = (digest_selected store).map format_digest_entry ∧
    digest_selected ((List.range 15).map (fun i => digest_demo_doc (i + 1)))
      = (List.range 10).map (fun i => digest_demo_doc (15 - i)) := by
  refine ⟨?_, ?_, ?_, ?_, rfl, by decide⟩
  · intro d hd
    have h1 : d ∈ (store.filter digest_filter).insertionSort dateDesc :=
      List.mem_of_mem_take hd
    rw [List.mem_insertionSort] at h1
    obtain ⟨hmem, hf⟩ := List.mem_filter.mp h1
    refine ⟨hmem, ?_, ?_⟩
    · have := (Bool.and_eq_true _ _ |>.mp hf).1
      simpa using this
    · have := (Bool.and_eq_true _ _ |>.mp hf).2
      simpa using this
  · exact List.Pairwise.sublist (List.take_sublist 10 _)
      (List.sorted_insertionSort dateDesc _)
  · unfold digest_selected
    rw [List.length_take, (List.perm_insertionSort dateDesc _).length_eq]
  · intro d hd hf hnot e he
    have hdL : d ∈ (store.filter digest_filter).insertionSort dateDesc :=
      (List.mem_insertionSort dateDesc).mpr (List.mem_filter.mpr ⟨hd, hf⟩)
    exact pairwise_take_of_not_mem_take
      (List.sorted_insertionSort dateDesc _) hdL hnot e he

/-- Witness for the amended C5 on a one-document store: the selected
document comes from the store and passes the code's filter. -/
theorem C5_digest_selection_amended_witness :
    digest_demo_doc 1 ∈ [digest_demo_doc 1] ∧
    (digest_demo_doc 1).content ≠ none ∧
    (digest_demo_doc 1).keywords ≠ some [] :=
  (C5_digest_selection_amended [digest_demo_doc 1]).1
    (digest_demo_doc 1) (by decide)

/-- Upserting never removes a url from the store. -/
theorem upsert_preserves_url (store : List NewsDoc) (doc : NewsDoc)
    (u : String) (h : ∃ d ∈ store, d.url = u) :
    ∃ d ∈ upsert store doc, d.url = u := by
  obtain ⟨d, hd, hdu⟩ := h
  unfold upsert
  by_cases hany : store.any (fun x => x.url = doc.url) = true
  · rw [if_pos hany]
    by_cases hdd : d.url = doc.url
    · refine ⟨doc, List.mem_map.mpr ⟨d, hd, by rw [if_pos hdd]⟩, ?_⟩
      rw [← hdd]
      exact hdu
    · exact ⟨d, List.mem_map.mpr ⟨d, hd, by rw [if_neg hdd]⟩, hdu⟩
  · rw [if_neg hany]
    exact ⟨d, List.mem_append_left _ hd, hdu⟩

/-- After upserting a document, its url is present in the store. -/
theorem upsert_mem_self_url (store : List NewsDoc) (doc : NewsDoc) :
    ∃ d ∈ upsert store doc, d.url = doc.url := by
  unfold upsert
  by_cases hany : store.any (fun x => x.url = doc.url) = true
  · rw [if_pos hany]
    obtain ⟨d, hd, hdu⟩ := List.any_eq_true.mp hany
    refine ⟨doc, List.mem_map.mpr ⟨d, hd, ?_⟩, rfl⟩
    rw [if_pos (of_decide_eq_true hdu)]
  · rw [if_neg hany]
    exact ⟨doc, List.mem_append_right _ (List.mem_singleton_self doc), rfl⟩

/-- One storage step never removes a url from the store. -/
theorem store_news_item_preserves_url (strptime : String → Option Nat)
    (now : Nat) (st : List NewsDoc × List NewsData) (news : NewsData)
    (u : String) (h : ∃ d ∈ st.1, d.url = u) :
    ∃ d ∈ (store_news_item strptime now st news).1, d.url = u := by
  cases hfind : st.1.find? (fun d => d.url = news.further_url) with
  | some d0 => simpa [store_news_item, hfind] using h
  | none =>
      simp only [store_news_item, hfind]
      exact upsert_preserves_url _ _ _ h

/-- After one storage step, the processed stub's url is in the store. -/
theorem store_news_item_adds_url (strptime : String → Option Nat)
    (now : Nat) (st : List NewsDoc × List NewsData) (news : NewsData) :
    ∃ d ∈ (store_news_item strptime now st news).1,
      d.url = news.further_url := by
  cases hfind : st.1.find? (fun d => d.url = news.further_url) with
  | some d0 =>
      have hmem := List.mem_of_find?_eq_some hfind
      have hp := List.find?_some hfind
      simp only [store_news_item, hfind]
      exact ⟨d0, hmem, of_decide_eq_true hp⟩
  | none =>
      simp only [store_news_item, hfind]
      obtain ⟨d, hd, hdu⟩ :=
        upsert_mem_self_url st.1 (format_news_document strptime now news none)
      exact ⟨d, hd, hdu⟩

/-- The storage loop appends every stub to the output and preserves and
accumulates stored urls. -/
theorem extract_news_list_urls (strptime : String → Option Nat) (now : Nat) :
    ∀ (news_data : List NewsData) (st : List NewsDoc × List NewsData),
      (∀ u, (∃ d ∈ st.1, d.url = u) →
        ∃ d ∈ (news_data.foldl (store_news_item strptime now) st).1,
          d.url = u) ∧
      (∀ n ∈ news_data,
        ∃ d ∈ (news_data.foldl (store_news_item strptime now) st).1,
          d.url = n.further_url) := by
  intro news_data
  induction news_data with
  | nil => intro st; exact ⟨fun _ h => h, by simp⟩
  | cons n rest ih =>
      intro st
      constructor
      · intro u h
        rw [List.foldl_cons]
        exact (ih _).1 u (store_news_item_preserves_url _ _ _ _ _ h)
      · intro m hm
        rw [List.foldl_cons]
        rcases List.mem_cons.mp hm with rfl | hm'
        · exact (ih _).1 _ (store_news_item_adds_url _ _ _ _)
        · exact (ih _).2 m hm'

/-- When every stub's url is already stored, the storage loop only
appends the stubs to the output and leaves the store untouched. -/
theorem extract_news_list_skip_all (strptime : String → Option Nat)
    (now : Nat) :
    ∀ (news_data : List NewsData) (store : List NewsDoc)
      (processed : List NewsData),
      (∀ n ∈ news_data, ∃ d ∈ store, d.url = n.further_url) →
      news_data.foldl (store_news_item strptime now) (store, processed) =
        (store, processed ++ news_data) := by
  intro news_data
  induction news_data with
  | nil => intro store processed _; simp
  | cons n rest ih =>
      intro store processed hall
      obtain ⟨d, hd, hdu⟩ := hall n (List.mem_cons_self n rest)
      cases hfind : store.find? (fun x => x.url = n.further_url) with
      | none =>
          have := (List.find?_eq_none.mp hfind) d hd
          simp [hdu] at this
      | some d0 =>
          rw [List.foldl_cons]
          have hstep :
              store_news_item strptime now (store, processed) n =
                (store, processed ++ [n]) := by
            simp [store_news_item, hfind]
          rw [hstep, ih store (processed ++ [n])
            (fun m hm => hall m (List.mem_cons_of_mem n hm))]
          simp

/-- Claim C6: the listing extractor returns every stub to the caller;
when a document with a stub's `further_url` already exists, the storage
step leaves the store completely unchanged (so existing `content` and
`keywords` are untouched); and a second run over the same stubs changes
nothing — no duplicate documents arise. -/
theorem C6_listing_idempotent (strptime : String → Option Nat) (now : Nat)
    (store : List NewsDoc) (news_data : List NewsData) :
    (extract_news_list strptime now store news_data).2 = news_data ∧
    (∀ (st : List NewsDoc × List NewsData) (news : NewsData) (d : NewsDoc),
      st.1.find? (fun x => x.url = news.further_url) = some d →
      store_news_item strptime now st news = (st.1, st.2 ++ [news])) ∧
    extract_news_list strptime now
        (extract_news_list strptime now store news_data).1 news_data =
      ((extract_news_list strptime now store news_data).1, news_data) := by
  refine ⟨?_, ?_, ?_⟩
  · have h : ∀ (nd : List NewsData) (st : List NewsDoc × List NewsData),
        (nd.foldl (store_news_item strptime now) st).2 = st.2 ++ nd := by
      intro nd
      induction nd with
      | nil => intro st; simp
      | cons n rest ih =>
          intro st
          rw [List.foldl_cons, ih]
          have hstep : (store_news_item strptime now st n).2 = st.2 ++ [n] := by
            cases hfind : st.1.find? (fun x => x.url = n.further_url) <;>
              simp [store_news_item, hfind]
          rw [hstep, List.append_assoc]
          simp
    simpa [extract_news_list] using h news_data (store, [])
  · intro st news d hfind
    simp [store_news_item, hfind]
  · have hurls := (extract_news_list_urls strptime now news_data (store, [])).2
    have := extract_news_list_skip_all strptime now news_data
      (news_data.foldl (store_news_item strptime now) (store, [])).1 []
      (fun n hn => hurls n hn)
    simpa [extract_news_list] using this

/-- Witness for C6: a stub whose url is already stored leaves the
one-document store unchanged while the stub is still reported. -/
theorem C6_listing_idempotent_witness :
    store_news_item (fun _ => none) 0 ([digest_demo_doc 1], [])
        { title := "n", tag := "", further_url := "u", post_time := "p" } =
      ([digest_demo_doc 1],
       [{ title := "n", tag := "", further_url := "u", post_time := "p" }]) :=
  (C6_listing_idempotent (fun _ => none) 0 [digest_demo_doc 1] []).2.1
    ([digest_demo_doc 1], [])
    { title := "n", tag := "", further_url := "u", post_time := "p" }
    (digest_demo_doc 1) (by decide)

end InfoFlow
